import Mathlib

/-!
Shallow embedding of the forge-runner test scheduler
(`crates/forge-runner/src/lib.rs`): the data model, the fuzz-campaign
aggregation of `run_with_fuzzing`, the dispatch decision of
`choose_test_strategy_and_run` with `function_args` and `BUILTINS`, and the
crate-level drain loop of `run_tests_from_crate`.

Concurrency is modelled by quantifying over the completion order of spawned
tasks and over each task's observation of the cancellation channels: the
outcome a spawned task delivers is an oracle parameter, and the order in
which the `FuturesUnordered` drain sees completions is an explicit list.
Fallible Rust code (`anyhow::Result`, `?`, panics inside a spawned task,
which `task??` turns into top-level errors) is modelled with `Except`.
-/

/-- Fuzzer configuration attached to a single test case
(`test_collector::FuzzerConfig`, as matched in `run_with_fuzzing`):
`fuzzer_runs : u32` and `fuzzer_seed : u64`, modelled as naturals since no
wrapping arithmetic is performed on them. -/
structure FuzzerConfig where
  fuzzer_runs : Nat
  fuzzer_seed : Nat
  deriving DecidableEq

/-- Runner configuration (`RunnerConfig` in lib.rs).  `workspace_root` is a
path never consulted by the scheduling logic and is omitted. -/
structure RunnerConfig where
  exit_first : Bool
  fuzzer_runs : Nat
  fuzzer_seed : Nat
  deriving DecidableEq

/-- A sierra concrete type id as the runner consults it: an identity plus the
optional `debug_name`, which is the only field `function_args` and
`run_with_fuzzing` inspect. -/
structure ConcreteTypeId where
  id : Nat
  debug_name : Option String
  deriving DecidableEq

/-- Gas statistics of a passed fuzz campaign (`FuzzingGasUsage` in
`test_case_summary`): the `f64` bounds are modelled as rationals. -/
structure FuzzingGasUsage where
  min : ℚ
  max : ℚ
  deriving DecidableEq

/-- Modelled from the spec: `TestCaseSummary` (module
`forge-runner::test_case_summary`, not under `src/`), the `CaseOutcome` sum
type of spec section 3: `Passed` carries `name`, `gas_used`, an optional
`runs` count and optional `gas_usages`; `Failed` carries `name`, `reason`
and an optional `runs` count; `Ignored` carries `name`; `Skipped` carries
nothing.  `gas_used` (an `f64`) is modelled as a rational. -/
inductive TestCaseSummary where
  | Passed (name : String) (gas_used : ℚ) (runs : Option Nat) (gas_usages : Option FuzzingGasUsage)
  | Failed (name : String) (reason : String) (runs : Option Nat)
  | Ignored (name : String)
  | Skipped
  deriving DecidableEq

/-- Modelled from the spec: the `runs()` accessor of `TestCaseSummary`
(module `test_case_summary`, not under `src/`); per spec section 3, `runs`
is the optional decoration present on `Passed` and `Failed` outcomes and
absent otherwise. -/
def TestCaseSummary.runs : TestCaseSummary → Option Nat
  | .Passed _ _ r _ => r
  | .Failed _ _ r => r
  | .Ignored _ => none
  | .Skipped => none

/-- Modelled from the spec: `TestCaseSummary::with_runs_and_gas_usage`
(module `test_case_summary`, not under `src/`); per spec section 4.3 the
final per-run outcome is "decorated with `runs` and `gas_usages`", which
only `Passed` and `Failed` can carry (spec section 3), `gas_usages` only
`Passed`. -/
def TestCaseSummary.with_runs_and_gas_usage :
    TestCaseSummary → Nat → Option FuzzingGasUsage → TestCaseSummary
  | .Passed name g _ _, r, gu => .Passed name g (some r) gu
  | .Failed name reason _, r, _ => .Failed name reason (some r)
  | s, _, _ => s

/-- The `matches!(item, TestCaseSummary::Passed { .. })` test used in
`run_with_fuzzing`. -/
def TestCaseSummary.isPassed : TestCaseSummary → Bool
  | .Passed _ _ _ _ => true
  | _ => false

/-- The `matches!(item, TestCaseSummary::Failed { .. })` test used in the
drain loops of `run_tests_from_crate` and `run_with_fuzzing`. -/
def TestCaseSummary.isFailed : TestCaseSummary → Bool
  | .Failed _ _ _ => true
  | _ => false

/-- Exit status of the runner (`RunnerStatus` in lib.rs). -/
inductive RunnerStatus where
  | Default
  | TestFailed
  | DidNotRun
  deriving DecidableEq

/-- Modelled from the spec: `TestCrateSummary` (module
`forge-runner::test_crate_summary`, not under `src/`); the three fields are
exactly those assigned in `run_tests_from_crate` lines 333-337 and named by
spec section 3 (`CrateSummary`). -/
structure TestCrateSummary where
  test_case_summaries : List TestCaseSummary
  runner_exit_status : RunnerStatus
  contained_fuzzed_tests : Bool
  deriving DecidableEq

/-- Result wrapper of a crate run (`TestCrateRunResult` in lib.rs). -/
inductive TestCrateRunResult where
  | Ok (summary : TestCrateSummary)
  | Interrupted (summary : TestCrateSummary)
  deriving DecidableEq

/-- The summary carried by either variant of `TestCrateRunResult`. -/
def TestCrateRunResult.summary : TestCrateRunResult → TestCrateSummary
  | .Ok s => s
  | .Interrupted s => s

/-- The failure modes a spawned case task can deliver: the two `anyhow`
errors raised while setting up a fuzz campaign (a parameter type without a
debug name; `RandomFuzzer::create` rejecting the parameter list), and a
panic inside the task (`.expect` / `.unwrap`), which surfaces through the
`JoinHandle` and the first `?` of `task??` alike. -/
inductive RunError where
  | missingDebugName
  | fuzzerCreate
  | expectPanic
  deriving DecidableEq

instance {ε α : Type} [DecidableEq ε] [DecidableEq α] : DecidableEq (Except ε α) :=
  fun a b =>
    match a, b with
    | .ok x, .ok y => decidable_of_iff (x = y) (by simp)
    | .error x, .error y => decidable_of_iff (x = y) (by simp)
    | .ok _, .error _ => isFalse (by simp)
    | .error _, .ok _ => isFalse (by simp)

/-- The fixed builtin slot list (`BUILTINS` in lib.rs lines 46-57). -/
def BUILTINS : List String :=
  ["Pedersen", "RangeCheck", "Bitwise", "EcOp", "Poseidon", "SegmentArena",
   "GasBuiltin", "System"]

/-- `function_args` (lib.rs lines 498-510): keep the parameter types whose
`debug_name` is not among the builtin names (each builtin name compared as
`Some(SmolStr::new(builtin))`). -/
def function_args (param_types : List ConcreteTypeId) (builtins : List String) :
    List ConcreteTypeId :=
  let builtinNames : List (Option String) := builtins.map (fun b => some b)
  param_types.filter (fun pt => !builtinNames.contains pt.debug_name)

/-- The argument-name collection of `run_with_fuzzing` lines 395-403:
`args.iter().map(|arg| arg.debug_name.ok_or_else(..)).collect::<Result<_>>()`
succeeds with all names exactly when every argument has a debug name, and
otherwise yields the first error. -/
def collectDebugNames : List ConcreteTypeId → Option (List String)
  | [] => some []
  | a :: rest =>
    match a.debug_name, collectDebugNames rest with
    | some n, some ns => some (n :: ns)
    | _, _ => none

/-- Modelled from the spec: the success condition of `RandomFuzzer::create`
(module `forge-runner::fuzzer`, not under `src/`); per spec section 4.1 it
errors exactly "when any type name is not in the supported set".  The
supported set itself is abstracted as a predicate. -/
def fuzzerCreateOk (supported : String → Bool) (arg_names : List String) : Bool :=
  arg_names.all supported

/-- The resolution of `(fuzzer_runs, fuzzer_seed)` in `run_with_fuzzing`
lines 405-411: the case-level `fuzzer_config` overrides the crate-level
`RunnerConfig` values. -/
def resolveFuzzer (case_fuzzer_config : Option FuzzerConfig) (cfg : RunnerConfig) :
    Nat × Nat :=
  match case_fuzzer_config with
  | some fc => (fc.fuzzer_runs, fc.fuzzer_seed)
  | none => (cfg.fuzzer_runs, cfg.fuzzer_seed)

/-- The inner drain loop of `run_with_fuzzing` lines 431-442: results are
pushed in completion order; after pushing a `Failed` result the campaign
channel is closed and the loop breaks. -/
def collectFuzzResults : List TestCaseSummary → List TestCaseSummary
  | [] => []
  | r :: rest => if r.isFailed then [r] else r :: collectFuzzResults rest

/-- The `runs` count of `run_with_fuzzing` lines 448-458: the number of
collected results that are `Passed` or `Failed`. -/
def countDecided (results : List TestCaseSummary) : Nat :=
  (results.filter (fun r => r.isPassed || r.isFailed)).length

/-- The `gas_usages_vec` of `run_with_fuzzing` lines 468-475: the `gas_used`
of every `Passed` result, in order. -/
def gasUsagesVec (results : List TestCaseSummary) : List ℚ :=
  results.filterMap (fun r =>
    match r with
    | .Passed _ g _ _ => some g
    | _ => none)

/-- Rust `Iterator::reduce(f64::max)`: a left fold of `max` seeded with the
first element, `None` on an empty list (whose `unwrap` panics). -/
def reduceMax : List ℚ → Option ℚ
  | [] => none
  | g :: rest => some (rest.foldl max g)

/-- Rust `Iterator::reduce(f64::min)`. -/
def reduceMin : List ℚ → Option ℚ
  | [] => none
  | g :: rest => some (rest.foldl min g)

/-- `run_with_fuzzing` (lib.rs lines 380-496).  `sendClosed` is the task's
observation of `send.is_closed()` on entry; `arrival i` is the outcome
delivered by the i-th fuzz-run task to complete (the scheduler spawns
exactly `fuzzer_runs` of them, and completion order is arbitrary, so the
drained sequence is `(List.range fuzzer_runs).map arrival`).  Errors of the
argument-name collection and of `RandomFuzzer::create` are returned through
`?`; the `.expect("Test should always run at least once")` and the
`reduce(..).unwrap()` panics are `RunError.expectPanic`. -/
def run_with_fuzzing (supported : String → Bool) (sendClosed : Bool)
    (args : List ConcreteTypeId) (case_fuzzer_config : Option FuzzerConfig)
    (cfg : RunnerConfig) (arrival : Nat → TestCaseSummary) :
    Except RunError TestCaseSummary :=
  if sendClosed then .ok .Skipped
  else
    match collectDebugNames args with
    | none => .error .missingDebugName
    | some argNames =>
      let fuzzer_runs := (resolveFuzzer case_fuzzer_config cfg).1
      if !fuzzerCreateOk supported argNames then .error .fuzzerCreate
      else
        let results := collectFuzzResults ((List.range fuzzer_runs).map arrival)
        match results.getLast? with
        | none => .error .expectPanic
        | some final_result =>
          let runs := countDecided results
          if final_result.isPassed then
            if runs ≠ fuzzer_runs then .ok .Skipped
            else
              match reduceMax (gasUsagesVec results), reduceMin (gasUsagesVec results) with
              | some mx, some mn =>
                .ok (final_result.with_runs_and_gas_usage runs
                      (some { min := mn, max := mx }))
              | _, _ => .error .expectPanic
          else .ok (final_result.with_runs_and_gas_usage runs none)

/-- Expected result classification of a test case
(`test_collector::ExpectedTestResult`, spec section 3: `{Success,
PanicWith(messages)}`). -/
inductive ExpectedTestResult where
  | Success
  | PanicWith (messages : List String)
  deriving DecidableEq

/-- A collected test case (`TestCaseRunnable` in lib.rs lines 134-142).
`fork_config` and `available_gas` are carried opaquely by the scheduler and
never inspected by it; `fork_config` (a URL plus block id) is omitted. -/
structure TestCaseRunnable where
  name : String
  available_gas : Option Nat
  ignored : Bool
  expected_result : ExpectedTestResult
  fuzzer_config : Option FuzzerConfig
  deriving DecidableEq

/-- Modelled from the spec: `run_test` (module `forge-runner::running`, not
under `src/`), the deterministic single-run path; per spec sections 4.2 and
5, the spawned task short-circuits to `Skipped` when it observes the outer
channel closed and otherwise delivers the executor's single-shot outcome,
which the model takes as an oracle value. -/
def run_test (sendClosed : Bool) (execOutcome : TestCaseSummary) :
    Except RunError TestCaseSummary :=
  if sendClosed then .ok .Skipped else .ok execOutcome

/-- The nondeterministic scheduling observations of one spawned case task:
whether it saw the outer channel closed when it started, the executor's
outcome on the deterministic path, and the completion-ordered outcomes of
its fuzz-run subtasks on the fuzzing path. -/
structure CaseSchedule where
  closedAtStart : Bool
  singleOutcome : TestCaseSummary
  fuzzArrival : Nat → TestCaseSummary

/-- `choose_test_strategy_and_run` (lib.rs lines 347-376): the deterministic
single-run path when `args` is empty, the fuzz campaign otherwise. -/
def choose_test_strategy_and_run (supported : String → Bool) (cfg : RunnerConfig)
    (sched : CaseSchedule) (args : List ConcreteTypeId) (case : TestCaseRunnable) :
    Except RunError TestCaseSummary :=
  if args.isEmpty then run_test sched.closedAtStart sched.singleOutcome
  else
    run_with_fuzzing supported sched.closedAtStart args case.fuzzer_config cfg
      sched.fuzzArrival

/-- The task spawned for one case by the loop of `run_tests_from_crate`
(lib.rs lines 282-312): a case the filter excludes gets a trivial task that
returns `Ok(Ignored { name })`; an included case is dispatched on
`function_args` of its program function's parameter types (`funcParams`
plays the role of the `sierra_program.funcs` lookup by name suffix). -/
def caseTask (supported : String → Bool) (cfg : RunnerConfig)
    (filter : TestCaseRunnable → Bool) (funcParams : String → List ConcreteTypeId)
    (sched : CaseSchedule) (case : TestCaseRunnable) :
    Except RunError TestCaseSummary :=
  if !filter case then .ok (.Ignored case.name)
  else
    choose_test_strategy_and_run supported cfg sched
      (function_args (funcParams case.name) BUILTINS) case

/-- The drain loop of `run_tests_from_crate` lines 317-330: tasks complete
in the order given by `order`; each completed task is unwrapped with
`task??`, so the first task error aborts the whole run, and otherwise the
results are pushed in completion order. -/
def drainTasks (task : Nat → Except RunError TestCaseSummary) :
    List Nat → Except RunError (List TestCaseSummary)
  | [] => .ok []
  | i :: rest =>
    match task i, drainTasks task rest with
    | .ok r, .ok rs => .ok (r :: rs)
    | .error e, _ => .error e
    | .ok _, .error e => .error e

/-- `run_tests_from_crate` (lib.rs lines 256-344).  `test_cases` is the
crate's case list; `sched i` gives the scheduling observations of case `i`'s
task and `order` the completion order of the spawned tasks (one task per
case, filtered-out ones included).  After the drain, `interrupted` holds iff
`exit_first` was set and some collected result was `Failed` (lines 322-327);
the summary always carries `RunnerStatus::Default` (line 335) and
`contained_fuzzed_tests` is whether any result has a `runs` count
(line 332). -/
def run_tests_from_crate (supported : String → Bool) (cfg : RunnerConfig)
    (test_cases : List TestCaseRunnable) (filter : TestCaseRunnable → Bool)
    (funcParams : String → List ConcreteTypeId) (sched : Nat → CaseSchedule)
    (order : List Nat) : Except RunError TestCrateRunResult :=
  match drainTasks (fun i =>
      match test_cases[i]? with
      | some case => caseTask supported cfg filter funcParams (sched i) case
      | none => .ok .Skipped) order with
  | .error e => .error e
  | .ok results =>
    let interrupted := cfg.exit_first && results.any (fun r => r.isFailed)
    let summary : TestCrateSummary :=
      { test_case_summaries := results
        runner_exit_status := .Default
        contained_fuzzed_tests := results.any (fun r => r.runs.isSome) }
    if interrupted then .ok (.Interrupted summary) else .ok (.Ok summary)

/-! Helper lemmas about the drain loops and the fold-based gas statistics. -/

theorem drainTasks_ok_mem (task : Nat → Except RunError TestCaseSummary) :
    ∀ (order : List Nat) (rs : List TestCaseSummary),
      drainTasks task order = .ok rs → ∀ i ∈ order, ∃ r ∈ rs, task i = .ok r := by
  intro order
  induction order with
  | nil => simp
  | cons j rest ih =>
    intro rs hdrain i hi
    rcases htj : task j with e | r₀
    · simp [drainTasks, htj] at hdrain
    · rcases hrest : drainTasks task rest with e | rs₀
      · simp [drainTasks, htj, hrest] at hdrain
      · simp only [drainTasks, htj, hrest, Except.ok.injEq] at hdrain
        subst hdrain
        rcases List.mem_cons.mp hi with hij | hirest
        · exact ⟨r₀, by simp, by rw [hij]; exact htj⟩
        · rcases ih rs₀ hrest i hirest with ⟨r, hr, hrt⟩
          exact ⟨r, by simp [hr], hrt⟩

theorem drainTasks_error_of_mem (task : Nat → Except RunError TestCaseSummary)
    (order : List Nat) (i : Nat) (e : RunError) (hi : i ∈ order)
    (he : task i = .error e) : ∃ e₂, drainTasks task order = .error e₂ := by
  induction order with
  | nil => simp at hi
  | cons j rest ih =>
    rcases htj : task j with e₀ | r₀
    · exact ⟨e₀, by simp [drainTasks, htj]⟩
    · rcases List.mem_cons.mp hi with hij | hirest
      · rw [hij] at he; rw [he] at htj; cases htj
      · rcases ih hirest with ⟨e₂, h₂⟩
        exact ⟨e₂, by simp [drainTasks, htj, h₂]⟩

theorem collectFuzzResults_of_no_failed (l : List TestCaseSummary)
    (h : ∀ r ∈ l, r.isFailed = false) : collectFuzzResults l = l := by
  induction l with
  | nil => rfl
  | cons a rest ih =>
    have ha : a.isFailed = false := h a (by simp)
    have hrest := ih (fun r hr => h r (by simp [hr]))
    simp [collectFuzzResults, ha, hrest]

theorem collectFuzzResults_last_failed (l : List TestCaseSummary)
    (h : ∃ r ∈ l, r.isFailed = true) :
    ∃ f, (collectFuzzResults l).getLast? = some f ∧ f.isFailed = true := by
  induction l with
  | nil => simp at h
  | cons a rest ih =>
    cases hb : a.isFailed with
    | true => exact ⟨a, by simp [collectFuzzResults, hb], hb⟩
    | false =>
      have hrest : ∃ r ∈ rest, r.isFailed = true := by
        rcases h with ⟨r, hr, hrf⟩
        rcases List.mem_cons.mp hr with h1 | h2
        · rw [h1] at hrf; rw [hrf] at hb; cases hb
        · exact ⟨r, h2, hrf⟩
      rcases ih hrest with ⟨f, hf, hff⟩
      refine ⟨f, ?_, hff⟩
      have hcoll : collectFuzzResults (a :: rest) = a :: collectFuzzResults rest := by
        simp [collectFuzzResults, hb]
      rw [hcoll]
      rcases hrep : collectFuzzResults rest with _ | ⟨b, tl⟩
      · rw [hrep] at hf; simp at hf
      · rw [hrep] at hf
        rw [List.getLast?_cons_cons]
        exact hf

theorem foldl_min_le_init (l : List ℚ) (a : ℚ) : l.foldl min a ≤ a := by
  induction l generalizing a with
  | nil => simp
  | cons b rest ih =>
    simp only [List.foldl_cons]
    exact le_trans (ih (min a b)) (min_le_left a b)

theorem foldl_min_le_mem (l : List ℚ) (a x : ℚ) (hx : x ∈ l) : l.foldl min a ≤ x := by
  induction l generalizing a with
  | nil => simp at hx
  | cons b rest ih =>
    simp only [List.foldl_cons]
    rcases List.mem_cons.mp hx with h1 | h2
    · subst h1
      exact le_trans (foldl_min_le_init rest (min a x)) (min_le_right a x)
    · exact ih (min a b) h2

theorem foldl_min_mem (l : List ℚ) (a : ℚ) : l.foldl min a = a ∨ l.foldl min a ∈ l := by
  induction l generalizing a with
  | nil => simp
  | cons b rest ih =>
    simp only [List.foldl_cons]
    rcases ih (min a b) with h | h
    · rcases min_choice a b with hab | hab
      · left; rw [h, hab]
      · right; rw [h, hab]; simp
    · right; simp [h]

theorem foldl_max_init_le (l : List ℚ) (a : ℚ) : a ≤ l.foldl max a := by
  induction l generalizing a with
  | nil => simp
  | cons b rest ih =>
    simp only [List.foldl_cons]
    exact le_trans (le_max_left a b) (ih (max a b))

theorem foldl_max_mem_le (l : List ℚ) (a x : ℚ) (hx : x ∈ l) : x ≤ l.foldl max a := by
  induction l generalizing a with
  | nil => simp at hx
  | cons b rest ih =>
    simp only [List.foldl_cons]
    rcases List.mem_cons.mp hx with h1 | h2
    · subst h1
      exact le_trans (le_max_right a x) (foldl_max_init_le rest (max a x))
    · exact ih (max a b) h2

theorem foldl_max_mem (l : List ℚ) (a : ℚ) : l.foldl max a = a ∨ l.foldl max a ∈ l := by
  induction l generalizing a with
  | nil => simp
  | cons b rest ih =>
    simp only [List.foldl_cons]
    rcases ih (max a b) with h | h
    · rcases max_choice a b with hab | hab
      · left; rw [h, hab]
      · right; rw [h, hab]; simp
    · right; simp [h]

theorem reduceMin_spec (l : List ℚ) (m : ℚ) (h : reduceMin l = some m) :
    m ∈ l ∧ ∀ x ∈ l, m ≤ x := by
  rcases l with _ | ⟨g, rest⟩
  · simp [reduceMin] at h
  · simp only [reduceMin, Option.some.injEq] at h
    subst h
    constructor
    · rcases foldl_min_mem rest g with h1 | h1
      · rw [h1]; simp
      · simp [h1]
    · intro x hx
      rcases List.mem_cons.mp hx with h1 | h1
      · subst h1; exact foldl_min_le_init rest x
      · exact foldl_min_le_mem rest g x h1

theorem reduceMax_spec (l : List ℚ) (m : ℚ) (h : reduceMax l = some m) :
    m ∈ l ∧ ∀ x ∈ l, x ≤ m := by
  rcases l with _ | ⟨g, rest⟩
  · simp [reduceMax] at h
  · simp only [reduceMax, Option.some.injEq] at h
    subst h
    constructor
    · rcases foldl_max_mem rest g with h1 | h1
      · rw [h1]; simp
      · simp [h1]
    · intro x hx
      rcases List.mem_cons.mp hx with h1 | h1
      · subst h1; exact foldl_max_init_le rest x
      · exact foldl_max_mem_le rest g x h1

theorem isFailed_eq_false_of_isPassed (s : TestCaseSummary) (h : s.isPassed = true) :
    s.isFailed = false := by
  cases s <;> simp [TestCaseSummary.isPassed, TestCaseSummary.isFailed] at h ⊢

theorem countDecided_of_all_passed (l : List TestCaseSummary)
    (h : ∀ r ∈ l, r.isPassed = true) : countDecided l = l.length := by
  unfold countDecided
  rw [List.filter_eq_self.mpr (fun a ha => by simp [h a ha])]

theorem gasUsagesVec_length_of_all_passed (l : List TestCaseSummary)
    (h : ∀ r ∈ l, r.isPassed = true) : (gasUsagesVec l).length = l.length := by
  induction l with
  | nil => rfl
  | cons a rest ih =>
    have ha : a.isPassed = true := h a (by simp)
    cases a with
    | Passed name g r gu =>
      simp only [gasUsagesVec, List.filterMap_cons]
      have := ih (fun r hr => h r (by simp [hr]))
      simp only [gasUsagesVec] at this
      simp [this]
    | Failed name reason r => simp [TestCaseSummary.isPassed] at ha
    | Ignored name => simp [TestCaseSummary.isPassed] at ha
    | Skipped => simp [TestCaseSummary.isPassed] at ha

theorem isPassed_eq_false_of_isFailed (s : TestCaseSummary) (h : s.isFailed = true) :
    s.isPassed = false := by
  cases s <;> simp [TestCaseSummary.isPassed, TestCaseSummary.isFailed] at h ⊢

theorem run_with_fuzzing_open (supported : String → Bool)
    (args : List ConcreteTypeId) (case_fuzzer_config : Option FuzzerConfig)
    (cfg : RunnerConfig) (arrival : Nat → TestCaseSummary) (ns : List String)
    (hdn : collectDebugNames args = some ns)
    (hsup : fuzzerCreateOk supported ns = true) :
    run_with_fuzzing supported false args case_fuzzer_config cfg arrival =
      (let fuzzer_runs := (resolveFuzzer case_fuzzer_config cfg).1
       let results := collectFuzzResults ((List.range fuzzer_runs).map arrival)
       match results.getLast? with
       | none => .error .expectPanic
       | some final_result =>
         let runs := countDecided results
         if final_result.isPassed then
           if runs ≠ fuzzer_runs then .ok .Skipped
           else
             match reduceMax (gasUsagesVec results), reduceMin (gasUsagesVec results) with
             | some mx, some mn =>
               .ok (final_result.with_runs_and_gas_usage runs
                     (some { min := mn, max := mx }))
             | _, _ => .error .expectPanic
         else .ok (final_result.with_runs_and_gas_usage runs none)) := by
  rw [run_with_fuzzing, if_neg (by simp), hdn]
  simp only [hsup, Bool.not_true]
  rw [if_neg (by simp)]

/-! The claim theorems. -/

/-- C9: for every scheduled case, the effective argument list is the
function's `param_types` with every parameter whose debug name is in the
fixed builtin set (Pedersen, RangeCheck, Bitwise, EcOp, Poseidon,
SegmentArena, GasBuiltin, System) removed; the case takes the deterministic
single-run path if and only if this list is empty, and the fuzz-campaign
path otherwise. -/
theorem C9_effective_args_and_dispatch (param_types : List ConcreteTypeId)
    (pt : ConcreteTypeId) (supported : String → Bool) (cfg : RunnerConfig)
    (sched : CaseSchedule) (args : List ConcreteTypeId) (case : TestCaseRunnable) :
    (pt ∈ function_args param_types BUILTINS ↔
      pt ∈ param_types ∧
        pt.debug_name ∉ [some "Pedersen", some "RangeCheck", some "Bitwise",
          some "EcOp", some "Poseidon", some "SegmentArena", some "GasBuiltin",
          some "System"]) ∧
    choose_test_strategy_and_run supported cfg sched args case =
      (if args = [] then run_test sched.closedAtStart sched.singleOutcome
       else
         run_with_fuzzing supported sched.closedAtStart args case.fuzzer_config
           cfg sched.fuzzArrival) := by
  constructor
  · simp [function_args, BUILTINS, List.mem_filter]
  · rcases args with _ | ⟨a, rest⟩
    · rfl
    · simp [choose_test_strategy_and_run]

/-- C10: for every fuzzed case whose resolved runs count is 0 and whose
outer cancellation channel is still open, given that fuzzer construction
succeeds, the campaign driver spawns no runs and hits the
`.expect("Test should always run at least once")` panic instead of
returning a case outcome. -/
theorem C10_zero_runs_panics (supported : String → Bool)
    (args : List ConcreteTypeId) (case_fuzzer_config : Option FuzzerConfig)
    (cfg : RunnerConfig) (arrival : Nat → TestCaseSummary) (ns : List String)
    (hdn : collectDebugNames args = some ns) (hsup : ns.all supported = true)
    (hK : (resolveFuzzer case_fuzzer_config cfg).1 = 0) :
    run_with_fuzzing supported false args case_fuzzer_config cfg arrival =
      .error .expectPanic := by
  unfold run_with_fuzzing
  rw [if_neg (by simp)]
  rw [hdn]
  simp only [fuzzerCreateOk, hsup, Bool.not_true]
  rw [if_neg (by simp)]
  rw [hK]
  rfl

/-- Witness for C10: a campaign with one supported `u32` parameter and a
case-level `fuzzer_config` of 0 runs panics. -/
theorem C10_zero_runs_panics_witness :
    run_with_fuzzing (fun _ => true) false [⟨0, some "u32"⟩]
      (some { fuzzer_runs := 0, fuzzer_seed := 9 })
      { exit_first := false, fuzzer_runs := 256, fuzzer_seed := 0 }
      (fun _ => .Skipped) = .error .expectPanic :=
  C10_zero_runs_panics (fun _ => true) [⟨0, some "u32"⟩]
    (some { fuzzer_runs := 0, fuzzer_seed := 9 })
    { exit_first := false, fuzzer_runs := 256, fuzzer_seed := 0 }
    (fun _ => .Skipped) ["u32"] (by decide) (by decide) (by decide)

/-- C1: for every crate run that completes without a propagated task error,
the `Interrupted(summary)` variant is returned if and only if
`config.exit_first` is set and some awaited case outcome was `Failed`;
otherwise the `Ok(summary)` variant is returned. -/
theorem C1_interrupted_iff_exit_first_and_failed (supported : String → Bool)
    (cfg : RunnerConfig) (test_cases : List TestCaseRunnable)
    (filter : TestCaseRunnable → Bool) (funcParams : String → List ConcreteTypeId)
    (sched : Nat → CaseSchedule) (order : List Nat) (r : TestCrateRunResult)
    (h : run_tests_from_crate supported cfg test_cases filter funcParams sched
          order = .ok r) :
    (∃ s, r = .Interrupted s) ↔
      (cfg.exit_first = true ∧
        r.summary.test_case_summaries.any (fun x => x.isFailed) = true) := by
  rcases hd : drainTasks (fun i =>
      match test_cases[i]? with
      | some case => caseTask supported cfg filter funcParams (sched i) case
      | none => .ok .Skipped) order with e | results
  · rw [run_tests_from_crate, hd] at h
    cases h
  · rw [run_tests_from_crate, hd] at h
    dsimp only at h
    split at h
    case isTrue hcond =>
      obtain rfl : r = _ := (Except.ok.inj h).symm
      rw [Bool.and_eq_true] at hcond
      exact ⟨fun _ => hcond, fun _ => ⟨_, rfl⟩⟩
    case isFalse hcond =>
      obtain rfl : r = _ := (Except.ok.inj h).symm
      constructor
      · intro hex
        rcases hex with ⟨s, hs⟩
        cases hs
      · intro hfail
        exact absurd (by rw [Bool.and_eq_true]; exact hfail) hcond

/-- Witness for C1: a one-case crate with `exit_first` set whose case fails
is reported as `Interrupted`, and the equivalence holds there. -/
theorem C1_interrupted_iff_exit_first_and_failed_witness :
    (∃ s, TestCrateRunResult.Interrupted
        { test_case_summaries := [.Failed "a" "boom" none]
          runner_exit_status := .Default
          contained_fuzzed_tests := false } = .Interrupted s) ↔
      (true = true ∧
        List.any [TestCaseSummary.Failed "a" "boom" none]
          (fun x => x.isFailed) = true) :=
  C1_interrupted_iff_exit_first_and_failed (fun _ => true)
    { exit_first := true, fuzzer_runs := 3, fuzzer_seed := 0 }
    [{ name := "a", available_gas := none, ignored := false,
       expected_result := .Success, fuzzer_config := none }]
    (fun _ => true) (fun _ => [])
    (fun _ =>
      { closedAtStart := false, singleOutcome := .Failed "a" "boom" none,
        fuzzArrival := fun _ => .Skipped })
    [0]
    (.Interrupted
      { test_case_summaries := [.Failed "a" "boom" none]
        runner_exit_status := .Default
        contained_fuzzed_tests := false })
    (by decide)

/-- C4 counterexample: a one-case crate whose single case is excluded by the
filter produces a summary whose `case_summaries` contains an
`Ignored { name }` entry for that case — it is not dropped, refuting the
claim that a filtered-out case contributes no entry. -/
theorem C4_counterexample :
    run_tests_from_crate (fun _ => true)
      { exit_first := false, fuzzer_runs := 3, fuzzer_seed := 0 }
      [{ name := "a", available_gas := none, ignored := false,
         expected_result := .Success, fuzzer_config := none }]
      (fun _ => false) (fun _ => [])
      (fun _ =>
        { closedAtStart := false, singleOutcome := .Skipped,
          fuzzArrival := fun _ => .Skipped })
      [0] =
      .ok (.Ok
        { test_case_summaries := [.Ignored "a"]
          runner_exit_status := .Default
          contained_fuzzed_tests := false }) ∧
    [TestCaseSummary.Ignored "a"] ≠ ([] : List TestCaseSummary) := by
  constructor
  · decide
  · decide

/-- C4 amended: a case the filter excludes is never executed, but it is not
silently dropped: the scheduler pushes a trivial task returning
`Ignored { name }` for it, so the crate summary contains an
`Ignored { name }` entry for every such case whose task is drained. -/
theorem C4_filtered_out_is_ignored_entry (supported : String → Bool)
    (cfg : RunnerConfig) (test_cases : List TestCaseRunnable)
    (filter : TestCaseRunnable → Bool) (funcParams : String → List ConcreteTypeId)
    (sched : Nat → CaseSchedule) (order : List Nat) (i : Nat)
    (c : TestCaseRunnable) (r : TestCrateRunResult)
    (hc : test_cases[i]? = some c) (hf : filter c = false) (hi : i ∈ order)
    (h : run_tests_from_crate supported cfg test_cases filter funcParams sched
          order = .ok r) :
    caseTask supported cfg filter funcParams (sched i) c = .ok (.Ignored c.name) ∧
      TestCaseSummary.Ignored c.name ∈ r.summary.test_case_summaries := by
  have htask : caseTask supported cfg filter funcParams (sched i) c =
      .ok (.Ignored c.name) := by
    simp [caseTask, hf]
  refine ⟨htask, ?_⟩
  rcases hd : drainTasks (fun i =>
      match test_cases[i]? with
      | some case => caseTask supported cfg filter funcParams (sched i) case
      | none => .ok .Skipped) order with e | results
  · rw [run_tests_from_crate, hd] at h
    cases h
  · have hmem := drainTasks_ok_mem _ order results hd i hi
    rcases hmem with ⟨res, hres, hok⟩
    rw [hc] at hok
    dsimp only at hok
    rw [htask] at hok
    obtain rfl : res = .Ignored c.name := (Except.ok.inj hok).symm
    rw [run_tests_from_crate, hd] at h
    dsimp only at h
    split at h <;>
      · obtain rfl : r = _ := (Except.ok.inj h).symm
        simpa [TestCrateRunResult.summary] using hres

/-- Witness for C4 amended: in a two-case crate whose first case is excluded
by a name filter, the summary contains `Ignored "a"`. -/
theorem C4_filtered_out_is_ignored_entry_witness :
    caseTask (fun _ => true)
      { exit_first := false, fuzzer_runs := 3, fuzzer_seed := 0 }
      (fun c => c.name == "b") (fun _ => [])
      { closedAtStart := false, singleOutcome := .Passed "a" 1 none none,
        fuzzArrival := fun _ => .Skipped }
      { name := "a", available_gas := none, ignored := false,
        expected_result := .Success, fuzzer_config := none } =
      .ok (.Ignored "a") ∧
    TestCaseSummary.Ignored "a" ∈
      (TestCrateRunResult.Ok
        { test_case_summaries := [.Passed "b" 2 none none, .Ignored "a"]
          runner_exit_status := .Default
          contained_fuzzed_tests := false }).summary.test_case_summaries :=
  C4_filtered_out_is_ignored_entry (fun _ => true)
    { exit_first := false, fuzzer_runs := 3, fuzzer_seed := 0 }
    [{ name := "a", available_gas := none, ignored := false,
       expected_result := .Success, fuzzer_config := none },
     { name := "b", available_gas := none, ignored := false,
       expected_result := .Success, fuzzer_config := none }]
    (fun c => c.name == "b") (fun _ => [])
    (fun i =>
      { closedAtStart := false,
        singleOutcome := if i = 0 then .Passed "a" 1 none none
          else .Passed "b" 2 none none,
        fuzzArrival := fun _ => .Skipped })
    [1, 0] 0
    { name := "a", available_gas := none, ignored := false,
      expected_result := .Success, fuzzer_config := none }
    (.Ok
      { test_case_summaries := [.Passed "b" 2 none none, .Ignored "a"]
        runner_exit_status := .Default
        contained_fuzzed_tests := false })
    (by decide) (by decide) (by decide) (by decide)

/-- C5 counterexample: a case with `ignored = true` that the filter includes
is executed like any other case — here its outcome is the executor's
`Passed`, not `Ignored`, refuting the claim that the scheduler emits
`Ignored { name }` for it without spawning execution work. -/
theorem C5_counterexample :
    run_tests_from_crate (fun _ => true)
      { exit_first := false, fuzzer_runs := 3, fuzzer_seed := 0 }
      [{ name := "a", available_gas := none, ignored := true,
         expected_result := .Success, fuzzer_config := none }]
      (fun _ => true) (fun _ => [])
      (fun _ =>
        { closedAtStart := false, singleOutcome := .Passed "a" 5 none none,
          fuzzArrival := fun _ => .Skipped })
      [0] =
      .ok (.Ok
        { test_case_summaries := [.Passed "a" 5 none none]
          runner_exit_status := .Default
          contained_fuzzed_tests := false }) ∧
    TestCaseSummary.Passed "a" 5 none none ≠ .Ignored "a" := by
  constructor
  · decide
  · decide

/-- C5 amended: `run_tests_from_crate` never consults the `ignored` flag.  A
case the filter includes is dispatched and executed regardless of
`ignored`: its task result is the dispatch result, which is the same for
any value of the flag (the engine emits `Ignored` only for cases the filter
excludes, so the ignored policy lives in the filter implementation). -/
theorem C5_ignored_flag_not_consulted (supported : String → Bool)
    (cfg : RunnerConfig) (filter : TestCaseRunnable → Bool)
    (funcParams : String → List ConcreteTypeId) (sched : CaseSchedule)
    (c : TestCaseRunnable) (b : Bool) (hf : filter c = true) :
    caseTask supported cfg filter funcParams sched c =
      choose_test_strategy_and_run supported cfg sched
        (function_args (funcParams c.name) BUILTINS) { c with ignored := b } := by
  obtain ⟨name, ag, ign, er, fc⟩ := c
  simp [caseTask, hf]
  rfl

/-- Witness for C5 amended: an included case with `ignored = true` delivers
the executor's outcome. -/
theorem C5_ignored_flag_not_consulted_witness :
    caseTask (fun _ => true)
      { exit_first := false, fuzzer_runs := 3, fuzzer_seed := 0 }
      (fun _ => true) (fun _ => [])
      { closedAtStart := false, singleOutcome := .Passed "a" 5 none none,
        fuzzArrival := fun _ => .Skipped }
      { name := "a", available_gas := none, ignored := true,
        expected_result := .Success, fuzzer_config := none } =
      choose_test_strategy_and_run (fun _ => true)
        { exit_first := false, fuzzer_runs := 3, fuzzer_seed := 0 }
        { closedAtStart := false, singleOutcome := .Passed "a" 5 none none,
          fuzzArrival := fun _ => .Skipped }
        (function_args [] BUILTINS)
        { name := "a", available_gas := none, ignored := false,
          expected_result := .Success, fuzzer_config := none } :=
  C5_ignored_flag_not_consulted (fun _ => true)
    { exit_first := false, fuzzer_runs := 3, fuzzer_seed := 0 }
    (fun _ => true) (fun _ => [])
    { closedAtStart := false, singleOutcome := .Passed "a" 5 none none,
      fuzzArrival := fun _ => .Skipped }
    { name := "a", available_gas := none, ignored := true,
      expected_result := .Success, fuzzer_config := none }
    false (by decide)

/-- C6 counterexample: a crate run that collects a `Failed` outcome still
reports `runner_exit_status = Default`, refuting the claim that the status
is `TestFailed` when a failure is present. -/
theorem C6_counterexample :
    run_tests_from_crate (fun _ => true)
      { exit_first := false, fuzzer_runs := 3, fuzzer_seed := 0 }
      [{ name := "a", available_gas := none, ignored := false,
         expected_result := .Success, fuzzer_config := none }]
      (fun _ => true) (fun _ => [])
      (fun _ =>
        { closedAtStart := false, singleOutcome := .Failed "a" "boom" none,
          fuzzArrival := fun _ => .Skipped })
      [0] =
      .ok (.Ok
        { test_case_summaries := [.Failed "a" "boom" none]
          runner_exit_status := .Default
          contained_fuzzed_tests := false }) ∧
    RunnerStatus.Default ≠ RunnerStatus.TestFailed := by
  constructor
  · decide
  · decide

/-- C6 amended: the summary's `runner_exit_status` field is unconditionally
`Default`: `run_tests_from_crate` sets it to `RunnerStatus::Default`
regardless of collected outcomes (it never produces `TestFailed` or
`DidNotRun`). -/
theorem C6_status_always_default (supported : String → Bool)
    (cfg : RunnerConfig) (test_cases : List TestCaseRunnable)
    (filter : TestCaseRunnable → Bool) (funcParams : String → List ConcreteTypeId)
    (sched : Nat → CaseSchedule) (order : List Nat) (r : TestCrateRunResult)
    (h : run_tests_from_crate supported cfg test_cases filter funcParams sched
          order = .ok r) :
    r.summary.runner_exit_status = .Default := by
  rcases hd : drainTasks (fun i =>
      match test_cases[i]? with
      | some case => caseTask supported cfg filter funcParams (sched i) case
      | none => .ok .Skipped) order with e | results
  · rw [run_tests_from_crate, hd] at h
    cases h
  · rw [run_tests_from_crate, hd] at h
    dsimp only at h
    split at h <;>
      · obtain rfl : r = _ := (Except.ok.inj h).symm
        rfl

/-- Witness for C6 amended: the failing one-case crate of the
counterexample input indeed carries status `Default`. -/
theorem C6_status_always_default_witness :
    (TestCrateRunResult.Ok
      { test_case_summaries := [.Failed "a" "boom" none]
        runner_exit_status := .Default
        contained_fuzzed_tests := false }).summary.runner_exit_status =
      RunnerStatus.Default :=
  C6_status_always_default (fun _ => true)
    { exit_first := false, fuzzer_runs := 3, fuzzer_seed := 0 }
    [{ name := "a", available_gas := none, ignored := false,
       expected_result := .Success, fuzzer_config := none }]
    (fun _ => true) (fun _ => [])
    (fun _ =>
      { closedAtStart := false, singleOutcome := .Failed "a" "boom" none,
        fuzzArrival := fun _ => .Skipped })
    [0]
    (.Ok
      { test_case_summaries := [.Failed "a" "boom" none]
        runner_exit_status := .Default
        contained_fuzzed_tests := false })
    (by decide)

/-- C7 counterexample: a fuzzed case one of whose (non-builtin) parameter
types has no debug name makes the whole `run_tests_from_crate` call return
a top-level error (the task error propagates through `task??`), not a
case-level `Failed { reason }` outcome, refuting the claim. -/
theorem C7_counterexample :
    run_tests_from_crate (fun _ => true)
      { exit_first := false, fuzzer_runs := 3, fuzzer_seed := 0 }
      [{ name := "a", available_gas := none, ignored := false,
         expected_result := .Success, fuzzer_config := none }]
      (fun _ => true) (fun _ => [⟨7, none⟩])
      (fun _ =>
        { closedAtStart := false, singleOutcome := .Skipped,
          fuzzArrival := fun _ => .Skipped })
      [0] = .error .missingDebugName := by
  decide

/-- C7 amended: every fuzzer-construction failure — a parameter type
without a debug name, or `RandomFuzzer::create` rejecting the parameter
list (unsupported parameter type) — in a scheduled, filter-included case
whose task is drained aborts `run_tests_from_crate` with a top-level error;
the failure is not surfaced as a case-level `Failed { reason }` outcome in
the summary. -/
theorem C7_fuzzer_setup_error_is_fatal (supported : String → Bool)
    (cfg : RunnerConfig) (test_cases : List TestCaseRunnable)
    (filter : TestCaseRunnable → Bool) (funcParams : String → List ConcreteTypeId)
    (sched : Nat → CaseSchedule) (order : List Nat) (i : Nat)
    (c : TestCaseRunnable) (hc : test_cases[i]? = some c) (hi : i ∈ order)
    (hf : filter c = true) (hopen : (sched i).closedAtStart = false)
    (hne : function_args (funcParams c.name) BUILTINS ≠ [])
    (hfail : collectDebugNames (function_args (funcParams c.name) BUILTINS) =
        none ∨
      ∃ ns, collectDebugNames (function_args (funcParams c.name) BUILTINS) =
          some ns ∧
        fuzzerCreateOk supported ns = false) :
    ∃ e, run_tests_from_crate supported cfg test_cases filter funcParams sched
      order = .error e := by
  have htask : ∃ e₀, caseTask supported cfg filter funcParams (sched i) c =
      .error e₀ := by
    rcases hfail with hdn | ⟨ns, hdn, hcr⟩
    · refine ⟨.missingDebugName, ?_⟩
      rw [caseTask, if_neg (by simp [hf])]
      rw [choose_test_strategy_and_run,
        if_neg (by simpa [List.isEmpty_iff] using hne)]
      rw [run_with_fuzzing, if_neg (by simp [hopen]), hdn]
    · refine ⟨.fuzzerCreate, ?_⟩
      rw [caseTask, if_neg (by simp [hf])]
      rw [choose_test_strategy_and_run,
        if_neg (by simpa [List.isEmpty_iff] using hne)]
      rw [run_with_fuzzing, if_neg (by simp [hopen]), hdn]
      dsimp only
      rw [hcr]
      rfl
  rcases htask with ⟨e₀, htask⟩
  have := drainTasks_error_of_mem (fun j =>
      match test_cases[j]? with
      | some case => caseTask supported cfg filter funcParams (sched j) case
      | none => .ok .Skipped) order i e₀ hi
    (by dsimp only; rw [hc]; exact htask)
  rcases this with ⟨e₂, he₂⟩
  exact ⟨e₂, by rw [run_tests_from_crate, he₂]⟩

/-- Witness for C7 amended, exercising the `RandomFuzzer::create` failure
branch: a crate whose fuzzed case has a parameter type the fuzzer does not
support aborts with an error. -/
theorem C7_fuzzer_setup_error_is_fatal_witness :
    ∃ e, run_tests_from_crate (fun _ => false)
      { exit_first := false, fuzzer_runs := 3, fuzzer_seed := 0 }
      [{ name := "a", available_gas := none, ignored := false,
         expected_result := .Success, fuzzer_config := none }]
      (fun _ => true) (fun _ => [⟨7, some "felt252"⟩])
      (fun _ =>
        { closedAtStart := false, singleOutcome := .Skipped,
          fuzzArrival := fun _ => .Skipped })
      [0] = .error e :=
  C7_fuzzer_setup_error_is_fatal (fun _ => false)
    { exit_first := false, fuzzer_runs := 3, fuzzer_seed := 0 }
    [{ name := "a", available_gas := none, ignored := false,
       expected_result := .Success, fuzzer_config := none }]
    (fun _ => true) (fun _ => [⟨7, some "felt252"⟩])
    (fun _ =>
      { closedAtStart := false, singleOutcome := .Skipped,
        fuzzArrival := fun _ => .Skipped })
    [0] 0
    { name := "a", available_gas := none, ignored := false,
      expected_result := .Success, fuzzer_config := none }
    (by decide) (by decide) (by decide) (by decide) (by decide)
    (Or.inr ⟨["felt252"], by decide, by decide⟩)

/-- C3: for every fuzz campaign in which at least one single run's outcome
is `Failed`, the outcome reported for the case is never `Passed`: the drain
loop stops collecting at the first `Failed` result, making it the final
observed outcome, so a campaign that returns an outcome at all returns a
non-`Passed` one. -/
theorem C3_failed_run_never_passed (supported : String → Bool)
    (sendClosed : Bool) (args : List ConcreteTypeId)
    (case_fuzzer_config : Option FuzzerConfig) (cfg : RunnerConfig)
    (arrival : Nat → TestCaseSummary) (s : TestCaseSummary) (i : Nat)
    (hi : i < (resolveFuzzer case_fuzzer_config cfg).1)
    (hfail : (arrival i).isFailed = true)
    (h : run_with_fuzzing supported sendClosed args case_fuzzer_config cfg
          arrival = .ok s) :
    s.isPassed = false := by
  cases sendClosed with
  | true =>
    rw [run_with_fuzzing, if_pos rfl] at h
    obtain rfl : s = .Skipped := (Except.ok.inj h).symm
    rfl
  | false =>
    rcases hdn : collectDebugNames args with _ | ns
    · rw [run_with_fuzzing, if_neg (by simp), hdn] at h
      cases h
    · cases hx : fuzzerCreateOk supported ns with
      | false =>
        rw [run_with_fuzzing, if_neg (by simp), hdn] at h
        dsimp only at h
        rw [hx] at h
        simp only [Bool.not_false, if_pos] at h
        cases h
      | true =>
        rw [run_with_fuzzing_open supported args case_fuzzer_config cfg arrival
          ns hdn hx] at h
        dsimp only at h
        rcases collectFuzzResults_last_failed
            ((List.range (resolveFuzzer case_fuzzer_config cfg).1).map arrival)
            ⟨arrival i, List.mem_map_of_mem arrival (List.mem_range.mpr hi),
              hfail⟩ with ⟨f, hf, hff⟩
        rw [hf] at h
        dsimp only at h
        rw [if_neg (by simp [isPassed_eq_false_of_isFailed f hff])] at h
        obtain rfl : s = _ := (Except.ok.inj h).symm
        cases f with
        | Failed name reason ru => rfl
        | Passed name g ru gu => simp [TestCaseSummary.isFailed] at hff
        | Ignored name => simp [TestCaseSummary.isFailed] at hff
        | Skipped => simp [TestCaseSummary.isFailed] at hff

/-- Witness for C3: a two-run campaign whose first completed run fails
reports a `Failed` outcome, which is not `Passed`. -/
theorem C3_failed_run_never_passed_witness :
    TestCaseSummary.isPassed (.Failed "t" "boom" (some 1)) = false :=
  C3_failed_run_never_passed (fun _ => true) false [⟨0, some "u32"⟩]
    (some { fuzzer_runs := 2, fuzzer_seed := 1 })
    { exit_first := false, fuzzer_runs := 5, fuzzer_seed := 0 }
    (fun _ => .Failed "t" "boom" none)
    (.Failed "t" "boom" (some 1)) 0 (by decide) (by decide) (by decide)

/-- C2: for every fuzzed case, the reported `runs` count equals the number
of collected per-run outcomes that are `Passed` or `Failed`; if the last
collected run outcome is `Passed` but that count is smaller than the
resolved `fuzzer_runs`, the campaign's outcome is reclassified to
`Skipped`; consequently every fuzzed case reported `Passed` has
`runs` equal to the resolved number of runs. -/
theorem C2_reported_runs_count (supported : String → Bool) (sendClosed : Bool)
    (args : List ConcreteTypeId) (case_fuzzer_config : Option FuzzerConfig)
    (cfg : RunnerConfig) (arrival : Nat → TestCaseSummary) (s : TestCaseSummary)
    (K : Nat) (results : List TestCaseSummary)
    (hK : (resolveFuzzer case_fuzzer_config cfg).1 = K)
    (hres : results = collectFuzzResults ((List.range K).map arrival))
    (h : run_with_fuzzing supported sendClosed args case_fuzzer_config cfg
          arrival = .ok s) :
    (∀ name reason ru, s = .Failed name reason ru →
      ru = some (countDecided results)) ∧
    (∀ name g ru gu, s = .Passed name g ru gu →
      ru = some (countDecided results) ∧ countDecided results = K) ∧
    (∀ f, results.getLast? = some f → f.isPassed = true →
      countDecided results < K → s = .Skipped) := by
  subst hK
  subst hres
  cases sendClosed with
  | true =>
    rw [run_with_fuzzing, if_pos rfl] at h
    obtain rfl : s = .Skipped := (Except.ok.inj h).symm
    refine ⟨?_, ?_, ?_⟩
    · intro name reason ru heq; cases heq
    · intro name g ru gu heq; cases heq
    · intro f _ _ _; rfl
  | false =>
    rcases hdn : collectDebugNames args with _ | ns
    · rw [run_with_fuzzing, if_neg (by simp), hdn] at h
      cases h
    · cases hx : fuzzerCreateOk supported ns with
      | false =>
        rw [run_with_fuzzing, if_neg (by simp), hdn] at h
        dsimp only at h
        rw [hx] at h
        simp only [Bool.not_false, if_pos] at h
        cases h
      | true =>
        rw [run_with_fuzzing_open supported args case_fuzzer_config cfg arrival
          ns hdn hx] at h
        dsimp only at h
        rcases hlast : (collectFuzzResults
            ((List.range (resolveFuzzer case_fuzzer_config cfg).1).map
              arrival)).getLast? with _ | final
        · rw [hlast] at h
          cases h
        · rw [hlast] at h
          dsimp only at h
          cases hfp : final.isPassed with
          | true =>
            rw [if_pos hfp] at h
            by_cases hrk : countDecided (collectFuzzResults
                ((List.range (resolveFuzzer case_fuzzer_config cfg).1).map
                  arrival)) = (resolveFuzzer case_fuzzer_config cfg).1
            · rw [if_neg (by simp [hrk])] at h
              rcases hgv : gasUsagesVec (collectFuzzResults
                  ((List.range (resolveFuzzer case_fuzzer_config cfg).1).map
                    arrival)) with _ | ⟨g₀, gr⟩
              · rw [hgv] at h
                cases h
              · rw [hgv] at h
                dsimp only [reduceMax, reduceMin] at h
                obtain rfl : s = _ := (Except.ok.inj h).symm
                refine ⟨?_, ?_, ?_⟩
                · intro name reason ru heq
                  cases final with
                  | Passed name₂ g₂ ru₂ gu₂ =>
                    simp [TestCaseSummary.with_runs_and_gas_usage] at heq
                  | Failed name₂ reason₂ ru₂ =>
                    simp [TestCaseSummary.isPassed] at hfp
                  | Ignored name₂ => simp [TestCaseSummary.isPassed] at hfp
                  | Skipped => simp [TestCaseSummary.isPassed] at hfp
                · intro name g ru gu heq
                  cases final with
                  | Passed name₂ g₂ ru₂ gu₂ =>
                    simp only [TestCaseSummary.with_runs_and_gas_usage,
                      TestCaseSummary.Passed.injEq] at heq
                    exact ⟨heq.2.2.1.symm, hrk⟩
                  | Failed name₂ reason₂ ru₂ =>
                    simp [TestCaseSummary.isPassed] at hfp
                  | Ignored name₂ => simp [TestCaseSummary.isPassed] at hfp
                  | Skipped => simp [TestCaseSummary.isPassed] at hfp
                · intro f hf hfpass hlt
                  rw [hrk] at hlt
                  exact absurd hlt (lt_irrefl _)
            · rw [if_pos hrk] at h
              obtain rfl : s = .Skipped := (Except.ok.inj h).symm
              refine ⟨?_, ?_, ?_⟩
              · intro name reason ru heq; cases heq
              · intro name g ru gu heq; cases heq
              · intro f _ _ _; rfl
          | false =>
            rw [if_neg (by simp [hfp])] at h
            obtain rfl : s = _ := (Except.ok.inj h).symm
            refine ⟨?_, ?_, ?_⟩
            · intro name reason ru heq
              cases final with
              | Failed name₂ reason₂ ru₂ =>
                simp only [TestCaseSummary.with_runs_and_gas_usage,
                  TestCaseSummary.Failed.injEq] at heq
                exact heq.2.2.symm
              | Passed name₂ g₂ ru₂ gu₂ =>
                simp [TestCaseSummary.isPassed] at hfp
              | Ignored name₂ =>
                simp [TestCaseSummary.with_runs_and_gas_usage] at heq
              | Skipped =>
                simp [TestCaseSummary.with_runs_and_gas_usage] at heq
            · intro name g ru gu heq
              cases final with
              | Failed name₂ reason₂ ru₂ =>
                simp [TestCaseSummary.with_runs_and_gas_usage] at heq
              | Passed name₂ g₂ ru₂ gu₂ =>
                simp [TestCaseSummary.isPassed] at hfp
              | Ignored name₂ =>
                simp [TestCaseSummary.with_runs_and_gas_usage] at heq
              | Skipped =>
                simp [TestCaseSummary.with_runs_and_gas_usage] at heq
            · intro f hf hfpass hlt
              obtain rfl : final = f := Option.some.inj hf
              rw [hfp] at hfpass
              cases hfpass

/-- Witness for C2: a two-run campaign with both runs passing reports
`runs = Some 2`, which is the count of decided outcomes and equals the
resolved runs count. -/
theorem C2_reported_runs_count_witness :
    (∀ name reason ru,
      (TestCaseSummary.Passed "t" 10 (some 2) (some { min := 10, max := 10 })) =
        .Failed name reason ru →
      ru = some (countDecided (collectFuzzResults
        ((List.range 2).map (fun _ => .Passed "t" 10 none none))))) ∧
    (∀ name g ru gu,
      (TestCaseSummary.Passed "t" 10 (some 2) (some { min := 10, max := 10 })) =
        .Passed name g ru gu →
      ru = some (countDecided (collectFuzzResults
        ((List.range 2).map (fun _ => .Passed "t" 10 none none)))) ∧
      countDecided (collectFuzzResults
        ((List.range 2).map (fun _ => .Passed "t" 10 none none))) = 2) ∧
    (∀ f, (collectFuzzResults
        ((List.range 2).map
          (fun _ => TestCaseSummary.Passed "t" 10 none none))).getLast? =
          some f →
      f.isPassed = true →
      countDecided (collectFuzzResults
        ((List.range 2).map (fun _ => .Passed "t" 10 none none))) < 2 →
      (TestCaseSummary.Passed "t" 10 (some 2) (some { min := 10, max := 10 })) =
        .Skipped) :=
  C2_reported_runs_count (fun _ => true) false [⟨0, some "u32"⟩]
    (some { fuzzer_runs := 2, fuzzer_seed := 1 })
    { exit_first := false, fuzzer_runs := 5, fuzzer_seed := 0 }
    (fun _ => .Passed "t" 10 none none)
    (.Passed "t" 10 (some 2) (some { min := 10, max := 10 }))
    2 (collectFuzzResults ((List.range 2).map (fun _ => .Passed "t" 10 none none)))
    (by decide) rfl (by decide)

/-- C8: for every fuzzed case with resolved runs count `K` (at least 1,
fuzzer construction succeeding, outer channel open) in which all `K` runs
return `Passed`, the reported outcome is `Passed` with `runs = Some K` and
`gas_usages = Some {min, max}` where `min` and `max` are the minimum and the
maximum of `gas_used` over the `K` passed runs (an element of the gas list
bounding it below, respectively above); the gas list has exactly `K`
entries. -/
theorem C8_all_passed_reports_gas_bounds (supported : String → Bool)
    (args : List ConcreteTypeId) (case_fuzzer_config : Option FuzzerConfig)
    (cfg : RunnerConfig) (arrival : Nat → TestCaseSummary) (ns : List String)
    (K : Nat) (hdn : collectDebugNames args = some ns)
    (hsup : fuzzerCreateOk supported ns = true)
    (hK : (resolveFuzzer case_fuzzer_config cfg).1 = K) (hKpos : 0 < K)
    (hall : ∀ i, i < K → (arrival i).isPassed = true) :
    ∃ name g mn mx,
      run_with_fuzzing supported false args case_fuzzer_config cfg arrival =
        .ok (.Passed name g (some K) (some { min := mn, max := mx })) ∧
      (gasUsagesVec ((List.range K).map arrival)).length = K ∧
      mn ∈ gasUsagesVec ((List.range K).map arrival) ∧
      (∀ x ∈ gasUsagesVec ((List.range K).map arrival), mn ≤ x) ∧
      mx ∈ gasUsagesVec ((List.range K).map arrival) ∧
      (∀ x ∈ gasUsagesVec ((List.range K).map arrival), x ≤ mx) := by
  have hallmem : ∀ r ∈ (List.range K).map arrival, r.isPassed = true := by
    intro r hr
    rcases List.mem_map.mp hr with ⟨i, hi, rfl⟩
    exact hall i (List.mem_range.mp hi)
  have hcoll : collectFuzzResults ((List.range K).map arrival) =
      (List.range K).map arrival :=
    collectFuzzResults_of_no_failed _
      (fun r hr => isFailed_eq_false_of_isPassed r (hallmem r hr))
  have hlen : ((List.range K).map arrival).length = K := by simp
  have hcount : countDecided ((List.range K).map arrival) = K := by
    rw [countDecided_of_all_passed _ hallmem, hlen]
  have hgaslen : (gasUsagesVec ((List.range K).map arrival)).length = K := by
    rw [gasUsagesVec_length_of_all_passed _ hallmem, hlen]
  rcases hlast : ((List.range K).map arrival).getLast? with _ | final
  · rw [List.getLast?_eq_none_iff] at hlast
    rw [hlast] at hlen
    simp at hlen
    omega
  · have hfinmem : final ∈ (List.range K).map arrival :=
      List.mem_of_getLast?_eq_some hlast
    have hfinp : final.isPassed = true := hallmem final hfinmem
    rcases hgv : gasUsagesVec ((List.range K).map arrival) with _ | ⟨g₀, gr⟩
    · rw [hgv] at hgaslen
      simp at hgaslen
      omega
    · have hmin := reduceMin_spec (g₀ :: gr) (gr.foldl min g₀) rfl
      have hmax := reduceMax_spec (g₀ :: gr) (gr.foldl max g₀) rfl
      cases final with
      | Passed name g ru gu =>
        refine ⟨name, g, gr.foldl min g₀, gr.foldl max g₀, ?_, ?_, ?_, ?_, ?_, ?_⟩
        · rw [run_with_fuzzing_open supported args case_fuzzer_config cfg
            arrival ns hdn hsup]
          dsimp only
          rw [hK, hcoll, hlast]
          dsimp only
          rw [if_pos hfinp, hcount]
          rw [if_neg (by simp), hgv]
          dsimp only [reduceMax, reduceMin]
          rw [TestCaseSummary.with_runs_and_gas_usage]
        · exact hgv ▸ hgaslen
        · exact hmin.1
        · exact hmin.2
        · exact hmax.1
        · exact hmax.2
      | Failed name reason ru => simp [TestCaseSummary.isPassed] at hfinp
      | Ignored name => simp [TestCaseSummary.isPassed] at hfinp
      | Skipped => simp [TestCaseSummary.isPassed] at hfinp

/-- Witness for C8: a two-run campaign with gas 10 and 4 reports
`Passed` with `runs = Some 2` and gas bounds that are the list min and
max. -/
theorem C8_all_passed_reports_gas_bounds_witness :
    ∃ name g mn mx,
      run_with_fuzzing (fun _ => true) false [⟨0, some "u32"⟩]
        (some { fuzzer_runs := 2, fuzzer_seed := 1 })
        { exit_first := false, fuzzer_runs := 5, fuzzer_seed := 0 }
        (fun i => .Passed "t" (if i = 0 then 10 else 4) none none) =
        .ok (.Passed name g (some 2) (some { min := mn, max := mx })) ∧
      (gasUsagesVec ((List.range 2).map
        (fun i => .Passed "t" (if i = 0 then 10 else 4) none none))).length = 2 ∧
      mn ∈ gasUsagesVec ((List.range 2).map
        (fun i => .Passed "t" (if i = 0 then 10 else 4) none none)) ∧
      (∀ x ∈ gasUsagesVec ((List.range 2).map
        (fun i => .Passed "t" (if i = 0 then 10 else 4) none none)), mn ≤ x) ∧
      mx ∈ gasUsagesVec ((List.range 2).map
        (fun i => .Passed "t" (if i = 0 then 10 else 4) none none)) ∧
      (∀ x ∈ gasUsagesVec ((List.range 2).map
        (fun i => .Passed "t" (if i = 0 then 10 else 4) none none)), x ≤ mx) :=
  C8_all_passed_reports_gas_bounds (fun _ => true) [⟨0, some "u32"⟩]
    (some { fuzzer_runs := 2, fuzzer_seed := 1 })
    { exit_first := false, fuzzer_runs := 5, fuzzer_seed := 0 }
    (fun i => .Passed "t" (if i = 0 then 10 else 4) none none)
    ["u32"] 2 (by decide) (by decide) (by decide) (by decide)
    (by intro i hi
        interval_cases i <;> decide)

